import Mathlib

/-!
Shallow embedding of the pair-selection program `get_baseline.py` (interferogram
pair selection for a SAR baseline table), together with theorems about the
claims of its specification.  Python floats are modelled as rationals, the
`datetime` objects as (year, day-of-year) records with an exact absolute-day
interpretation, pandas data frames as lists of records, and fallible Python
code (TypeError / IndexError / KeyError) as `Except String`.
-/

attribute [local semireducible] Rat.add Rat.sub Rat.mul Rat.inv Rat.ofScientific

namespace GetBaseline

/-- Python `datetime` as the code uses it: the code reads `.year`,
`.timetuple().tm_yday` (day of year), compares dates and subtracts them
(taking `.days`).  We carry the year and the day of year; the absolute day
count `toAbs` (proleptic Gregorian, day 1 of year `y` being absolute day
`365*(y-1) + (y-1)/4 - (y-1)/100 + (y-1)/400 + 1` with floor divisions)
determines ordering and day-difference exactly for calendar-valid dates. -/
structure Date where
  year : Int
  doy  : Int
deriving DecidableEq

/-- Absolute (proleptic Gregorian) day number of a date. -/
def Date.toAbs (d : Date) : Int :=
  365 * (d.year - 1) + (d.year - 1).fdiv 4 - (d.year - 1).fdiv 100
    + (d.year - 1).fdiv 400 + d.doy

/-- `(b - a).days` on datetimes. -/
def daysBetween (a b : Date) : Int := b.toAbs - a.toAbs

/-- One row of the GMTSAR baseline table, as produced by
`load_baseline_table`: columns `scene_id, sar_time, sar_day, B_para, Bp`
plus the appended `date`.  The table handed to `select_pairs` is already
sorted by `sar_time` and reindexed `0..N-1`. -/
structure Scene where
  scene_id : String
  sar_time : ℚ
  sar_day  : ℚ
  B_para   : ℚ
  Bp       : ℚ
  date     : Date
deriving DecidableEq

def defaultScene : Scene := ⟨"", 0, 0, 0, 0, ⟨1, 1⟩⟩

/-- `baseline_table.iloc[k]` (total accessor; every use in the embedding is
at `k < N`). -/
def sceneAt (tbl : List Scene) (k : Nat) : Scene := tbl.getD k defaultScene

/-- `baseline_table['date'][k]` -/
def dateAt (tbl : List Scene) (k : Nat) : Date := (sceneAt tbl k).date

/-- `baseline_table['Bp'][k]` -/
def bpAt (tbl : List Scene) (k : Nat) : ℚ := (sceneAt tbl k).Bp

/-- `baseline_table['scene_id'][k]` -/
def idAt (tbl : List Scene) (k : Nat) : String := (sceneAt tbl k).scene_id

/-! ### The N×N network matrices -/

/-- An `np.zeros((N, N))` 0/1 network matrix, as a boolean predicate on
index pairs. -/
def Mat := Nat → Nat → Bool

/-- `np.zeros((N, N))`: all entries off. -/
def mat0 : Mat := fun _ _ => false

/-- `M[i, j] = 1` -/
def matSet (M : Mat) (i j : Nat) : Mat :=
  fun a b => if a = i ∧ b = j then true else M a b

/-- `for i in range(N): for j in range(N): if P i j: M[i, j] = 1`,
starting from `np.zeros((N, N))` — the shared shape of the SEQ, SKIP and
baseline-constraint loops. -/
def buildMat (N : Nat) (P : Nat → Nat → Bool) : Mat :=
  (List.range N).foldl
    (fun M i =>
      (List.range N).foldl (fun M j => if P i j then matSet M i j else M) M)
    mat0

/-! ### The selection strategies (lines 288-313 and 404-417) -/

/-- Condition of the Sequential loop: `abs(j - i) == 1`. -/
def seqCond (i j : Nat) : Bool := ((j : Int) - (i : Int)).natAbs = 1

/-- `ID_SEQ` -/
def seqMat (N : Nat) : Mat := buildMat N seqCond

/-- Condition of the Skip loop: `abs(j - i) == 2` (fixed order 2; the
generalized `abs(j - i) == SKIP` variant is commented out in the source). -/
def skipCond (i j : Nat) : Bool := ((j : Int) - (i : Int)).natAbs = 2

/-- `ID_SKIP` -/
def skipMat (N : Nat) : Mat := buildMat N skipCond

/-- Condition of the baseline-constraint loop:
`dp = Bp[i] - Bp[j]; dT = (date[j] - date[i]).days;`
`abs(dp) < BP_MAX and dT >= DT_MIN and dT <= DT_MAX`. -/
def blCond (tbl : List Scene) (BP_MAX DT_MIN DT_MAX : ℚ) (i j : Nat) : Bool :=
  let dp := bpAt tbl i - bpAt tbl j
  let dT := daysBetween (dateAt tbl i) (dateAt tbl j)
  decide (|dp| < BP_MAX) && decide (DT_MIN ≤ (dT : ℚ)) && decide ((dT : ℚ) ≤ DT_MAX)

/-- `ID_BASELINE` -/
def blMat (tbl : List Scene) (BP_MAX DT_MIN DT_MAX : ℚ) : Mat :=
  buildMat tbl.length (blCond tbl BP_MAX DT_MIN DT_MAX)

/-- Mode-2 masking `subset_IDs[key] *= ID_BASELINE`: element-wise product
of 0/1 matrices. -/
def matMask (M B : Mat) : Mat := fun i j => M i j && B i j

/-- Lines 419-428: in mode 1 append a standalone `'BL'` entry; in mode 2
multiply `ID_BASELINE` into every previously selected strategy matrix. -/
def applyBLStage (mode : ℚ) (B : Mat) (subs : List (String × Mat)) :
    List (String × Mat) :=
  if mode = 1 then subs ++ [("BL", B)]
  else if mode = 2 then subs.map (fun p => (p.1, matMask p.2 B))
  else subs

/-! ### The pair materializer (lines 431-462) -/

/-- The retained index pairs of one strategy matrix, in row-major scan
order: `subset_IDs[key][i, j] == 1 and initials[i, j] < repeats[i, j]`,
where `initials[i, j]` is `date[i]` and `repeats[i, j]` is `date[j]`. -/
def pairScan (tbl : List Scene) (M : Mat) : List (Nat × Nat) :=
  (List.range tbl.length).flatMap fun i =>
    (List.range tbl.length).filterMap fun j =>
      if M i j = true ∧ (dateAt tbl i).toAbs < (dateAt tbl j).toAbs then
        some (i, j)
      else none

/-- `scene_id[i] + ':' + scene_id[j]` -/
def pairInput (tbl : List Scene) (p : Nat × Nat) : String :=
  idAt tbl p.1 ++ ":" ++ idAt tbl p.2

/-- `[date[i], date[j]]` -/
def pairDates (tbl : List Scene) (p : Nat × Nat) : Date × Date :=
  (dateAt tbl p.1, dateAt tbl p.2)

/-- The materializer loop for one strategy: a single row-major pass that
appends to `inputs` and to `dates` in the same iteration whenever the
entry is on and the initial date strictly precedes the repeat date. -/
def materializeLists (tbl : List Scene) (M : Mat) :
    List String × List (Date × Date) :=
  (List.range tbl.length).foldl
    (fun acc i =>
      (List.range tbl.length).foldl
        (fun acc j =>
          if M i j = true ∧ (dateAt tbl i).toAbs < (dateAt tbl j).toAbs then
            (acc.1 ++ [pairInput tbl (i, j)], acc.2 ++ [pairDates tbl (i, j)])
          else acc)
        acc)
    ([], [])

/-- Lines 436-451: loop over the strategy dictionary, building
`subset_inputs[key]` and `subset_dates[key]` in the same iteration. -/
def subsetLists (tbl : List Scene) (subs : List (String × Mat)) :
    List (String × List String) × List (String × List (Date × Date)) :=
  subs.foldl
    (fun acc p =>
      let md := materializeLists tbl p.2
      (acc.1 ++ [(p.1, md.1)], acc.2 ++ [(p.1, md.2)]))
    ([], [])

/-- Lines 455-459: `intf_inputs.extend(subset_inputs[key])` over the keys. -/
def intfInputs (tbl : List Scene) (subs : List (String × Mat)) : List String :=
  (subsetLists tbl subs).1.foldl (fun acc p => acc ++ p.2) []

/-- Lines 456-462: `intf_dates.extend(subset_dates[key])` over the keys. -/
def intfDates (tbl : List Scene) (subs : List (String × Mat)) :
    List (Date × Date) :=
  (subsetLists tbl subs).2.foldl (fun acc p => acc ++ p.2) []

/-- All strategies' retained index pairs, in strategy order then row-major
order (specification-side view used to state alignment). -/
def masterPairs (tbl : List Scene) (subs : List (String × Mat)) :
    List (Nat × Nat) :=
  subs.flatMap fun p => pairScan tbl p.2

/-! ### Reference-scene (supermaster) selection, lines 254-277 -/

/-- A value returned by `load_PRM`: a parsed `%Y%m%d` date (keys containing
`DATE`), a float, or the raw string; `load_PRM` returns `None` (here
`Option.none`) when the key is absent. -/
inductive PrmVal where
  | date (d : Date)
  | num  (q : ℚ)
  | str  (s : String)
deriving DecidableEq

/-- Python `DATE_MASTER in baseline_table['date']`: pandas series
membership tests the series' index (after `reset_index` the `RangeIndex`
`0..N-1`), not its values.  A float is contained when it equals one of the
integer labels; a datetime, a string, or `None` never is. -/
def indexContains (N : Nat) : Option PrmVal → Bool
  | some (.num q) => (List.range N).any fun k => decide (q = (k : ℚ))
  | _ => false

/-- Elementwise `baseline_table['date'] == DATE_MASTER`: true exactly when
`DATE_MASTER` is a datetime equal to the entry (a float, string or `None`
compares unequal to a datetime). -/
def pyEqDate (d : Date) : Option PrmVal → Bool
  | some (.date d2) => decide (d = d2)
  | _ => false

/-- First index attaining the minimum of `f` over `l`; ties resolve to the
first occurrence (the semantics of both the boolean mask
`dev == dev.min()` followed by `.values[0]` and of pandas `idxmin`).
`none` only on the empty list. -/
def argminFirst (l : List Nat) (f : Nat → ℚ) : Option Nat :=
  l.foldl
    (fun b x =>
      match b with
      | none => some x
      | some b0 => if f x < f b0 then some x else some b0)
    none

/-- `baseline_table['Bp'].mean()` -/
def bpMean (tbl : List Scene) : ℚ := (tbl.map Scene.Bp).sum / (tbl.length : ℚ)

/-- Deviation of scene `k` from the stack-mean baseline,
`abs(baseline_table['Bp'] - Bp_mean)`. -/
def bpDev (tbl : List Scene) (k : Nat) : ℚ := |bpAt tbl k - bpMean tbl|

/-- Row index of the first row of
`baseline_table[abs(Bp - Bp_mean) == min(abs(Bp - Bp_mean))]`. -/
def fallbackIndex (tbl : List Scene) : Option Nat :=
  argminFirst (List.range tbl.length) (bpDev tbl)

/-- Lines 258-277: choose the supermaster row and convert it to a record.
The branch condition is the pandas index-membership test above; the `else`
branch keeps the rows whose date equals `DATE_MASTER` and takes
`.values[0]` of each column, an `IndexError` when no row matches. -/
def selectSupermaster (tbl : List Scene) (dm : Option PrmVal) :
    Except String Scene :=
  if indexContains tbl.length dm = false then
    match fallbackIndex tbl with
    | some k => .ok (sceneAt tbl k)
    | none => .error "IndexError: index 0 is out of bounds for axis 0 with size 0"
  else
    match (List.range tbl.length).filter (fun k => pyEqDate (dateAt tbl k) dm) with
    | k :: _ => .ok (sceneAt tbl k)
    | [] => .error "IndexError: index 0 is out of bounds for axis 0 with size 0"

/-! ### The Long (seasonal-chain) strategy, lines 328-395 -/

/-- Python `int(q)`: truncation toward zero. -/
def pyTrunc (q : ℚ) : Int := if q < 0 then ⌈q⌉ else ⌊q⌋

/-- `dt.datetime.strptime(str(int(year*1000 + L)), '%Y%j')`: for a
four-digit year and a day value in `[1, 366]` this is the date of that
year with that day of year, which the `Date` record carries directly.
(The day-number arithmetic extends this totally; CPython raises
`ValueError` for a day of year the year does not have, a case no claim
depends on.) -/
def winDate (year : Int) (L : ℚ) : Date := ⟨year, pyTrunc L⟩

/-- Line 345, the Julian-day pre-filter over the whole table:
`(date.timetuple().tm_yday >= LONG_START) & (... <= LONG_END)`. -/
def longScenes (tbl : List Scene) (LS LE : ℚ) : List Nat :=
  (List.range tbl.length).filter fun k =>
    decide (LS ≤ (((dateAt tbl k).doy : Int) : ℚ)) &&
    decide ((((dateAt tbl k).doy : Int) : ℚ) ≤ LE)

/-- `baseline_table['date'].iloc[-1]` -/
def lastDate (tbl : List Scene) : Date := dateAt tbl (tbl.length - 1)

/-- `baseline_table['date'].iloc[-1].year` -/
def lastYear (tbl : List Scene) : Int := (lastDate tbl).year

/-- Line 369, the window filter of the inner loop:
`long_scenes[(long_scenes['date'] >= start0) & (long_scenes['date'] <= end0)]`. -/
def windowScenes (tbl : List Scene) (LS LE : ℚ) (year : Int) : List Nat :=
  (longScenes tbl LS LE).filter fun k =>
    decide ((winDate year LS).toAbs ≤ (dateAt tbl k).toAbs) &&
    decide ((dateAt tbl k).toAbs ≤ (winDate year LE).toAbs)

/-- State of the chain-building loop: the current reference row `i`, the
year whose window is searched next, the `complete` flag, and the edges
recorded so far (`ID_LONG[i, j] = 1`). -/
structure LState where
  i : Nat
  year : Int
  complete : Bool
  edges : List (Nat × Nat)
deriving DecidableEq

/-- One iteration of the inner `while len(long_scenes0) == 0` body (lines
366-381) together with, when it exits with a non-empty window, the edge
recording of the outer body (lines 383-393): compute the window of the
current year, advance the year, apply the two termination guards in
source order (reaching the last scene's year while the reference scene's
Julian day is at most `LONG_END` forces the window to the rows carrying
the last date; exceeding the last scene's year forces it to the last row),
then—if the window is non-empty—pick the scene minimizing the baseline
difference to the reference (`idxmin`, first occurrence on ties; the
single-row guard-2 window yields its own row label), record the edge and
move the reference there. -/
def longStep (tbl : List Scene) (LS LE : ℚ) (s : LState) : LState :=
  let N := tbl.length
  let year1 := s.year + 1
  let w0 := windowScenes tbl LS LE s.year
  let g1 : Bool := decide (year1 = lastYear tbl) &&
    decide ((((dateAt tbl s.i).doy : Int) : ℚ) ≤ LE)
  let w1 := if g1 then
      (List.range N).filter (fun k => decide (dateAt tbl k = lastDate tbl))
    else w0
  let g2 : Bool := decide (lastYear tbl < year1)
  let w2 := if g2 then [N - 1] else w1
  let c2 : Bool := if g2 then true else g1
  if w2.isEmpty then { s with year := year1 }
  else
    let j := (argminFirst w2 (fun k => |bpAt tbl s.i - bpAt tbl k|)).getD 0
    { i := j, year := year1, complete := c2, edges := s.edges ++ [(s.i, j)] }

/-- Lines 349-358: start at row 0; if the first scene's Julian day
precedes `LONG_START` the first searched year is its own year, otherwise
the following year. -/
def longInit (tbl : List Scene) (LS : ℚ) : LState :=
  { i := 0
    year :=
      if (((dateAt tbl 0).doy : Int) : ℚ) < LS then (dateAt tbl 0).year
      else (dateAt tbl 0).year + 1
    complete := false
    edges := [] }

/-- The `while complete == False` loop, stepped one inner iteration at a
time, with explicit fuel; `none` means the fuel ran out before the chain
was marked complete. -/
def longRun (tbl : List Scene) (LS LE : ℚ) : Nat → LState → Option LState
  | 0, _ => none
  | f + 1, s =>
      if s.complete then some s else longRun tbl LS LE f (longStep tbl LS LE s)

/-- Fuel that `longRun_isSome` proves sufficient from state `s`. -/
def longFuel (tbl : List Scene) (s : LState) : Nat :=
  (lastYear tbl + 2 - s.year).toNat + 2

/-- `ID_LONG`: the matrix with the recorded chain edges on. -/
def edgesToMat (edges : List (Nat × Nat)) : Mat :=
  edges.foldl (fun M e => matSet M e.1 e.2) mat0

/-! ### Configuration handling and `select_pairs` (lines 225-470) -/

/-- The `load_PRM` lookups done by `select_pairs`; each is `none` when the
key is absent from the parameter file. -/
structure Config where
  SEQ : Option ℚ
  SKIP : Option ℚ
  LONG : Option ℚ
  LONG_START : Option ℚ
  LONG_END : Option ℚ
  BL_MODE : Option ℚ
  BP_MAX : Option ℚ
  DT_MIN : Option ℚ
  DT_MAX : Option ℚ
  DATE_MASTER : Option PrmVal
deriving DecidableEq

/-- Python truthiness `bool(x)` of a `load_PRM` result: `None` and `0.0`
are falsy. -/
def pyBool : Option ℚ → Bool
  | none => false
  | some q => decide (q ≠ 0)

/-- Python `x > 0` on a `load_PRM` result: comparing `None` with an int
raises `TypeError`. -/
def pyGtZero : Option ℚ → Except String Bool
  | none => .error "TypeError: '>' not supported between instances of 'NoneType' and 'int'"
  | some q => .ok (decide (0 < q))

/-- Lines 248-252 and 339-342, the default-instatement loops:
`for param, value, default in zip(...): if value == None: param = default`.
Assigning to the loop variable `param` rebinds it and leaves the
configuration values untouched (the zipped lists are also misaligned: the
first loop pairs the three names BP_MAX/DT_MIN/DT_MAX with the four
values BL_MODE/BP_MAX/DT_MIN/DT_MAX, and the second pairs the single name
LONG_START with the values LONG_START and LONG_END).  Apart from printing,
the loops are the identity on the configuration. -/
def instateDefaults (c : Config) : Config := c

/-- Lines 329-395 as a stage of `select_pairs`: for a non-empty table a
missing `LONG_START`/`LONG_END` raises `TypeError` in the Julian-day
comprehension of line 345; for the empty table line 351
(`baseline_table['date'][0]`) raises a lookup error; otherwise run the
chain loop and produce `ID_LONG`. -/
def longStage (tbl : List Scene) (LS LE : Option ℚ) : Except String Mat :=
  if tbl.length = 0 then .error "KeyError: 0"
  else
    match LS, LE with
    | some ls, some le =>
        match longRun tbl ls le (longFuel tbl (longInit tbl ls)) (longInit tbl ls) with
        | some st => .ok (edgesToMat st.edges)
        | none => .error "internal: loop out of fuel"
    | _, _ =>
        .error "TypeError: '>=' not supported between instances of 'int' and 'NoneType'"

/-- The tuple returned by `select_pairs`. -/
structure SelOut where
  intf_inputs : List String
  intf_dates : List (Date × Date)
  subset_inputs : List (String × List String)
  subset_dates : List (String × List (Date × Date))
  supermaster : Scene
deriving DecidableEq

/-- `select_pairs(baseline_table, prm_file)` (lines 225-470), over the
already-loaded configuration: choose the supermaster, build the strategy
matrices in dictionary insertion order SEQ, SKIP, LONG, apply the
baseline-constraint stage according to `BL_MODE`, and materialize the
per-strategy and aggregated pair lists. -/
def selectPairs (tbl : List Scene) (cfg0 : Config) : Except String SelOut := do
  let N := tbl.length
  let cfg := instateDefaults cfg0
  let supermaster ← selectSupermaster tbl cfg.DATE_MASTER
  let subs : List (String × Mat) := []
  let subs := if pyBool cfg.SEQ then subs ++ [("SEQ", seqMat N)] else subs
  let skipOn ← pyGtZero cfg.SKIP
  let subs := if skipOn then subs ++ [("SKIP", skipMat N)] else subs
  let subs ←
    if pyBool cfg.LONG then do
      let m ← longStage tbl cfg.LONG_START cfg.LONG_END
      pure (subs ++ [("LONG", m)])
    else pure subs
  let blOn ← pyGtZero cfg.BL_MODE
  let subs ←
    if blOn then
      match cfg.BP_MAX, cfg.DT_MIN, cfg.DT_MAX with
      | some bp, some d1, some d2 =>
          pure (applyBLStage (cfg.BL_MODE.getD 0) (blMat tbl bp d1 d2) subs)
      | _, _, _ =>
          Except.error "TypeError: unsupported format string passed to NoneType.__format__"
    else pure subs
  pure { intf_inputs := intfInputs tbl subs
         intf_dates := intfDates tbl subs
         subset_inputs := (subsetLists tbl subs).1
         subset_dates := (subsetLists tbl subs).2
         supermaster := supermaster }


/-! ### Concrete example data for witnesses and counterexamples -/

/-- A table row with the given id, acquisition time, perpendicular
baseline and date. -/
def exScene (id : String) (t bp : ℚ) (d : Date) : Scene := ⟨id, t, 0, 0, bp, d⟩

/-- Three scenes, strictly increasing dates, baselines 100, 0, 10. -/
def exTbl3 : List Scene :=
  [exScene "A" 1 100 ⟨2020, 5⟩, exScene "B" 2 0 ⟨2020, 17⟩,
   exScene "C" 3 10 ⟨2020, 29⟩]

/-- Two scenes acquired on the same date (possible for rows sorted by
`sar_time`, e.g. two same-day frames). -/
def exTblSame2 : List Scene :=
  [exScene "A" 1 0 ⟨2020, 5⟩, exScene "B" 2 1 ⟨2020, 5⟩]

/-- Three scenes acquired on the same date. -/
def exTblSame3 : List Scene :=
  [exScene "A" 1 0 ⟨2020, 5⟩, exScene "B" 2 1 ⟨2020, 5⟩,
   exScene "C" 3 2 ⟨2020, 5⟩]

/-- A parameter file that sets `SEQ = 1` and omits the `SKIP` key. -/
def exCfgNoSkip : Config :=
  { SEQ := some 1, SKIP := none, LONG := some 0, LONG_START := none,
    LONG_END := none, BL_MODE := some 0, BP_MAX := none, DT_MIN := none,
    DT_MAX := none, DATE_MASTER := none }

/-- A parameter file whose `DATE_MASTER` is the date of scene 0 of
`exTbl3`. -/
def exCfgWithDM : Config :=
  { SEQ := some 1, SKIP := some 1, LONG := some 0, LONG_START := none,
    LONG_END := none, BL_MODE := some 0, BP_MAX := none, DT_MIN := none,
    DT_MAX := none, DATE_MASTER := some (PrmVal.date ⟨2020, 5⟩) }

/-! ## Lemmas -/

theorem matSet_true_iff (M : Mat) (i j a b : Nat) :
    matSet M i j a b = true ↔ (a = i ∧ b = j) ∨ M a b = true := by
  by_cases h : a = i ∧ b = j <;> simp [matSet, h]

theorem innerFold_spec (P : Nat → Nat → Bool) (i : Nat) :
    ∀ (n : Nat) (M : Mat) (a b : Nat),
      ((List.range n).foldl (fun M j => if P i j then matSet M i j else M) M) a b = true ↔
        (a = i ∧ b < n ∧ P i b = true) ∨ M a b = true := by
  intro n
  induction n with
  | zero => intro M a b; simp
  | succ n ih =>
    intro M a b
    rw [List.range_succ, List.foldl_append]
    simp only [List.foldl_cons, List.foldl_nil]
    by_cases hP : P i n
    · rw [if_pos hP, matSet_true_iff, ih]
      constructor
      · rintro (⟨ha, hb⟩ | ⟨ha, hb, hpb⟩ | hM)
        · exact Or.inl ⟨ha, by omega, by rw [hb]; exact hP⟩
        · exact Or.inl ⟨ha, by omega, hpb⟩
        · exact Or.inr hM
      · rintro (⟨ha, hb, hpb⟩ | hM)
        · by_cases hbn : b = n
          · exact Or.inl ⟨ha, hbn⟩
          · exact Or.inr (Or.inl ⟨ha, by omega, hpb⟩)
        · exact Or.inr (Or.inr hM)
    · rw [if_neg hP, ih]
      constructor
      · rintro (⟨ha, hb, hpb⟩ | hM)
        · exact Or.inl ⟨ha, by omega, hpb⟩
        · exact Or.inr hM
      · rintro (⟨ha, hb, hpb⟩ | hM)
        · by_cases hbn : b = n
          · exact absurd (hbn ▸ hpb) hP
          · exact Or.inl ⟨ha, by omega, hpb⟩
        · exact Or.inr hM

theorem buildMat_spec (N : Nat) (P : Nat → Nat → Bool) (a b : Nat) :
    buildMat N P a b = true ↔ a < N ∧ b < N ∧ P a b = true := by
  unfold buildMat
  have main : ∀ (n : Nat) (M : Mat),
      ((List.range n).foldl
        (fun M i =>
          (List.range N).foldl (fun M j => if P i j then matSet M i j else M) M) M) a b = true ↔
      (a < n ∧ b < N ∧ P a b = true) ∨ M a b = true := by
    intro n
    induction n with
    | zero => intro M; simp
    | succ n ih =>
      intro M
      rw [List.range_succ, List.foldl_append]
      simp only [List.foldl_cons, List.foldl_nil]
      rw [innerFold_spec, ih]
      constructor
      · rintro (⟨ha, hb, hpb⟩ | ⟨ha, hb, hpb⟩ | hM)
        · exact Or.inl ⟨by omega, hb, ha ▸ hpb⟩
        · exact Or.inl ⟨by omega, hb, hpb⟩
        · exact Or.inr hM
      · rintro (⟨ha, hb, hpb⟩ | hM)
        · by_cases han : a = n
          · exact Or.inl ⟨han, hb, han ▸ hpb⟩
          · exact Or.inr (Or.inl ⟨by omega, hb, hpb⟩)
        · exact Or.inr (Or.inr hM)
  rw [main N mat0]
  simp [mat0]

/-! ### Materializer bridge lemmas: the imperative folds compute maps over
the row-major pair scan. -/

theorem materialize_inner_bridge (tbl : List Scene) (M : Mat) (i : Nat) :
    ∀ (l : List Nat) (acc : List String × List (Date × Date)),
      (l.foldl
        (fun acc j =>
          if M i j = true ∧ (dateAt tbl i).toAbs < (dateAt tbl j).toAbs then
            (acc.1 ++ [pairInput tbl (i, j)], acc.2 ++ [pairDates tbl (i, j)])
          else acc)
        acc) =
      (acc.1 ++ (l.filterMap fun j =>
          if M i j = true ∧ (dateAt tbl i).toAbs < (dateAt tbl j).toAbs then
            some (i, j) else none).map (pairInput tbl),
       acc.2 ++ (l.filterMap fun j =>
          if M i j = true ∧ (dateAt tbl i).toAbs < (dateAt tbl j).toAbs then
            some (i, j) else none).map (pairDates tbl)) := by
  intro l
  induction l with
  | nil => intro acc; simp
  | cons j l ih =>
    intro acc
    by_cases h : M i j = true ∧ (dateAt tbl i).toAbs < (dateAt tbl j).toAbs
    · simp only [List.foldl_cons, List.filterMap_cons, if_pos h, ih, List.map_cons,
        List.append_assoc, List.singleton_append]
    · simp only [List.foldl_cons, List.filterMap_cons, if_neg h, ih]

theorem materialize_outer_bridge (tbl : List Scene) (M : Mat) :
    ∀ (l : List Nat) (acc : List String × List (Date × Date)),
      (l.foldl
        (fun acc i =>
          (List.range tbl.length).foldl
            (fun acc j =>
              if M i j = true ∧ (dateAt tbl i).toAbs < (dateAt tbl j).toAbs then
                (acc.1 ++ [pairInput tbl (i, j)], acc.2 ++ [pairDates tbl (i, j)])
              else acc)
            acc)
        acc) =
      (acc.1 ++ (l.flatMap fun i => (List.range tbl.length).filterMap fun j =>
          if M i j = true ∧ (dateAt tbl i).toAbs < (dateAt tbl j).toAbs then
            some (i, j) else none).map (pairInput tbl),
       acc.2 ++ (l.flatMap fun i => (List.range tbl.length).filterMap fun j =>
          if M i j = true ∧ (dateAt tbl i).toAbs < (dateAt tbl j).toAbs then
            some (i, j) else none).map (pairDates tbl)) := by
  intro l
  induction l with
  | nil => intro acc; simp
  | cons i l ih =>
    intro acc
    rw [List.foldl_cons, ih, materialize_inner_bridge]
    simp [List.flatMap_cons, List.map_append, List.append_assoc]

theorem materializeLists_eq (tbl : List Scene) (M : Mat) :
    materializeLists tbl M =
      ((pairScan tbl M).map (pairInput tbl), (pairScan tbl M).map (pairDates tbl)) := by
  unfold materializeLists pairScan
  rw [materialize_outer_bridge]
  simp

theorem subsetLists_eq (tbl : List Scene) (subs : List (String × Mat)) :
    subsetLists tbl subs =
      (subs.map fun p => (p.1, (pairScan tbl p.2).map (pairInput tbl)),
       subs.map fun p => (p.1, (pairScan tbl p.2).map (pairDates tbl))) := by
  unfold subsetLists
  have main : ∀ (l : List (String × Mat)) (acc : List (String × List String) ×
      List (String × List (Date × Date))),
      (l.foldl
        (fun acc p =>
          let md := materializeLists tbl p.2
          (acc.1 ++ [(p.1, md.1)], acc.2 ++ [(p.1, md.2)]))
        acc) =
      (acc.1 ++ l.map fun p => (p.1, (pairScan tbl p.2).map (pairInput tbl)),
       acc.2 ++ l.map fun p => (p.1, (pairScan tbl p.2).map (pairDates tbl))) := by
    intro l
    induction l with
    | nil => intro acc; simp
    | cons p l ih =>
      intro acc
      rw [List.foldl_cons, ih, materializeLists_eq]
      simp [List.map_cons, List.append_assoc, List.singleton_append]
  rw [main]
  simp

theorem foldl_append_eq_flatMap {α β : Type} (f : α → List β) :
    ∀ (l : List α) (acc : List β),
      (l.foldl (fun acc p => acc ++ f p) acc) = acc ++ l.flatMap f := by
  intro l
  induction l with
  | nil => intro acc; simp
  | cons p l ih => intro acc; simp [ih]

theorem intfInputs_eq (tbl : List Scene) (subs : List (String × Mat)) :
    intfInputs tbl subs = (masterPairs tbl subs).map (pairInput tbl) := by
  unfold intfInputs masterPairs
  rw [subsetLists_eq]
  have h := foldl_append_eq_flatMap
    (fun p : String × List String => p.2)
    (subs.map fun p => (p.1, (pairScan tbl p.2).map (pairInput tbl))) []
  rw [h]
  simp [List.flatMap_map, List.map_flatMap]

theorem intfDates_eq (tbl : List Scene) (subs : List (String × Mat)) :
    intfDates tbl subs = (masterPairs tbl subs).map (pairDates tbl) := by
  unfold intfDates masterPairs
  rw [subsetLists_eq]
  have h := foldl_append_eq_flatMap
    (fun p : String × List (Date × Date) => p.2)
    (subs.map fun p => (p.1, (pairScan tbl p.2).map (pairDates tbl))) []
  rw [h]
  simp [List.flatMap_map, List.map_flatMap]

theorem mem_pairScan (tbl : List Scene) (M : Mat) (p : Nat × Nat) :
    p ∈ pairScan tbl M ↔
      p.1 < tbl.length ∧ p.2 < tbl.length ∧ M p.1 p.2 = true ∧
        (dateAt tbl p.1).toAbs < (dateAt tbl p.2).toAbs := by
  unfold pairScan
  simp only [List.mem_flatMap, List.mem_filterMap, List.mem_range]
  constructor
  · rintro ⟨i, hi, j, hj, hsome⟩
    by_cases h : M i j = true ∧ (dateAt tbl i).toAbs < (dateAt tbl j).toAbs
    · rw [if_pos h] at hsome
      cases hsome
      exact ⟨hi, hj, h.1, h.2⟩
    · rw [if_neg h] at hsome
      cases hsome
  · rintro ⟨h1, h2, h3, h4⟩
    exact ⟨p.1, h1, p.2, h2, by rw [if_pos ⟨h3, h4⟩]⟩

theorem pairScan_nodup (tbl : List Scene) (M : Mat) : (pairScan tbl M).Nodup := by
  unfold pairScan
  rw [List.nodup_flatMap]
  constructor
  · intro i _
    refine List.Nodup.filterMap ?_ (List.nodup_range tbl.length)
    intro a a' b hb hb'
    by_cases h : M i a = true ∧ (dateAt tbl i).toAbs < (dateAt tbl a).toAbs
    · rw [if_pos h] at hb
      by_cases h' : M i a' = true ∧ (dateAt tbl i).toAbs < (dateAt tbl a').toAbs
      · rw [if_pos h'] at hb'
        cases hb; cases hb'; rfl
      · rw [if_neg h'] at hb'; cases hb'
    · rw [if_neg h] at hb; cases hb
  · refine List.Pairwise.imp ?_ (List.nodup_range tbl.length)
    intro i i' hne
    intro p hp hp'
    simp only [Function.onFun, List.mem_filterMap, List.mem_range] at hp hp'
    obtain ⟨j, _, hj⟩ := hp
    obtain ⟨j', _, hj'⟩ := hp'
    by_cases h : M i j = true ∧ (dateAt tbl i).toAbs < (dateAt tbl j).toAbs
    · rw [if_pos h] at hj
      by_cases h' : M i' j' = true ∧ (dateAt tbl i').toAbs < (dateAt tbl j').toAbs
      · rw [if_pos h'] at hj'
        cases hj; cases hj'
        exact hne rfl
      · rw [if_neg h'] at hj'; cases hj'
    · rw [if_neg h] at hj; cases hj

theorem argminFirst_some_mem (f : Nat → ℚ) :
    ∀ (l : List Nat), l ≠ [] → ∃ r, argminFirst l f = some r ∧ r ∈ l := by
  have aux : ∀ (l : List Nat) (b : Nat),
      ∃ r, (l.foldl
        (fun b x =>
          match b with
          | none => some x
          | some b0 => if f x < f b0 then some x else some b0)
        (some b)) = some r ∧ (r = b ∨ r ∈ l) := by
    intro l
    induction l with
    | nil => intro b; exact ⟨b, rfl, Or.inl rfl⟩
    | cons x l ih =>
      intro b
      simp only [List.foldl_cons]
      by_cases h : f x < f b
      · rw [if_pos h]
        obtain ⟨r, hr, hmem⟩ := ih x
        refine ⟨r, hr, ?_⟩
        rcases hmem with rfl | hmem
        · exact Or.inr (List.mem_cons_self _ _)
        · exact Or.inr (List.mem_cons_of_mem _ hmem)
      · rw [if_neg h]
        obtain ⟨r, hr, hmem⟩ := ih b
        refine ⟨r, hr, ?_⟩
        rcases hmem with rfl | hmem
        · exact Or.inl rfl
        · exact Or.inr (List.mem_cons_of_mem _ hmem)
  intro l hl
  match l with
  | [] => exact absurd rfl hl
  | x :: l =>
    obtain ⟨r, hr, hmem⟩ := aux l x
    refine ⟨r, hr, ?_⟩
    rcases hmem with rfl | hmem
    · exact List.mem_cons_self _ _
    · exact List.mem_cons_of_mem _ hmem

theorem argminFirst_range_spec (f : Nat → ℚ) :
    ∀ N : Nat, 0 < N →
      ∃ r, argminFirst (List.range N) f = some r ∧ r < N ∧
        (∀ m < N, f r ≤ f m) ∧ (∀ m < r, f r < f m) := by
  intro N
  induction N with
  | zero => intro h; omega
  | succ n ih =>
    intro _
    by_cases hn : 0 < n
    · obtain ⟨r, hEq, hlt, hmin, hfirst⟩ := ih hn
      unfold argminFirst at hEq ⊢
      rw [List.range_succ, List.foldl_append, hEq]
      simp only [List.foldl_cons, List.foldl_nil]
      by_cases hc : f n < f r
      · refine ⟨n, by rw [if_pos hc], by omega, ?_, ?_⟩
        · intro m hm
          by_cases hmn : m = n
          · rw [hmn]
          · exact le_of_lt (lt_of_lt_of_le hc (hmin m (by omega)))
        · intro m hm
          exact lt_of_lt_of_le hc (hmin m hm)
      · refine ⟨r, by rw [if_neg hc], by omega, ?_, hfirst⟩
        intro m hm
        by_cases hmn : m = n
        · rw [hmn]; exact le_of_not_lt hc
        · exact hmin m (by omega)
    · have hn0 : n = 0 := by omega
      subst hn0
      refine ⟨0, rfl, by omega, ?_, ?_⟩
      · intro m hm
        have : m = 0 := by omega
        rw [this]
      · intro m hm; omega

theorem longStep_year (tbl : List Scene) (LS LE : ℚ) (s : LState) :
    (longStep tbl LS LE s).year = s.year + 1 := by
  unfold longStep
  dsimp only
  repeat' split
  all_goals rfl

theorem longStep_guard2 (tbl : List Scene) (LS LE : ℚ) (s : LState)
    (h : lastYear tbl < s.year + 1) :
    longStep tbl LS LE s =
      { i := tbl.length - 1, year := s.year + 1, complete := true,
        edges := s.edges ++ [(s.i, tbl.length - 1)] } := by
  unfold longStep
  simp only [decide_eq_true_eq, if_pos h, decide_eq_true h]
  rfl

theorem longRun_of_complete (tbl : List Scene) (LS LE : ℚ) (s : LState)
    (h : s.complete = true) (f : Nat) :
    longRun tbl LS LE (f + 1) s = some s := by
  unfold longRun
  rw [if_pos h]

theorem longRun_isSome (tbl : List Scene) (LS LE : ℚ) :
    ∀ (m : Nat) (s : LState), (lastYear tbl + 2 - s.year).toNat ≤ m →
      (longRun tbl LS LE (m + 2) s).isSome = true := by
  intro m
  induction m with
  | zero =>
    intro s hm
    have hy : lastYear tbl < s.year + 1 := by omega
    show (longRun tbl LS LE (1 + 1) s).isSome = true
    unfold longRun
    by_cases hc : s.complete
    · rw [if_pos hc]; rfl
    · rw [if_neg hc]
      rw [longStep_guard2 tbl LS LE s hy]
      unfold longRun
      rw [if_pos rfl]
      rfl
  | succ m ih =>
    intro s hm
    show (longRun tbl LS LE (m + 1 + 2) s).isSome = true
    unfold longRun
    by_cases hc : s.complete
    · rw [if_pos hc]; rfl
    · rw [if_neg hc]
      by_cases hy : lastYear tbl < s.year + 1
      · rw [longStep_guard2 tbl LS LE s hy]
        have : (m + 2) = (m + 1) + 1 := by omega
        rw [this, longRun_of_complete]
        · rfl
        · rfl
      · apply ih
        rw [longStep_year]
        omega

/-- Shared lemma for the banded strategies: if the matrix is the
`|j - i| = k` band and the table's dates strictly increase with the index,
the retained scan is (up to order) the list of pairs `(i, i + k)` with
`i + k < N`. -/
theorem pairScan_band_perm (tbl : List Scene) (k : Nat) (hk : 0 < k)
    (hmono : ∀ a b, a < b → b < tbl.length →
      (dateAt tbl a).toAbs < (dateAt tbl b).toAbs)
    (M : Mat)
    (hM : ∀ i j, M i j = true ↔ i < tbl.length ∧ j < tbl.length ∧
      ((j : Int) - (i : Int)).natAbs = k) :
    ∀ p, (p ∈ pairScan tbl M ↔ p.2 = p.1 + k ∧ p.2 < tbl.length) := by
  intro p
  rw [mem_pairScan]
  constructor
  · rintro ⟨h1, h2, h3, h4⟩
    rw [hM] at h3
    have hlt : p.1 < p.2 := by
      rcases Nat.lt_trichotomy p.1 p.2 with h | h | h
      · exact h
      · rw [h] at h4; omega
      · have := hmono p.2 p.1 h h1; omega
    refine ⟨by omega, h2⟩
  · rintro ⟨h1, h2⟩
    have hp1 : p.1 < tbl.length := by omega
    refine ⟨hp1, h2, ?_, ?_⟩
    · rw [hM]; exact ⟨hp1, h2, by omega⟩
    · exact hmono p.1 p.2 (by omega) h2

/-- The band scan has exactly `N - k` entries. -/
theorem pairScan_band_length (tbl : List Scene) (k : Nat) (hk : 0 < k)
    (hmono : ∀ a b, a < b → b < tbl.length →
      (dateAt tbl a).toAbs < (dateAt tbl b).toAbs)
    (M : Mat)
    (hM : ∀ i j, M i j = true ↔ i < tbl.length ∧ j < tbl.length ∧
      ((j : Int) - (i : Int)).natAbs = k) :
    (pairScan tbl M).length = tbl.length - k := by
  have hperm : (pairScan tbl M).Perm
      ((List.range (tbl.length - k)).map (fun i => (i, i + k))) := by
    apply List.perm_of_nodup_nodup_toFinset_eq (pairScan_nodup tbl M)
    · refine List.Nodup.map ?_ (List.nodup_range _)
      intro a b hab
      exact (Prod.mk.injEq _ _ _ _ ▸ hab).1
    · ext p
      simp only [List.mem_toFinset, List.mem_map, List.mem_range]
      rw [pairScan_band_perm tbl k hk hmono M hM p]
      constructor
      · rintro ⟨h1, h2⟩
        exact ⟨p.1, by omega, by cases p; simp_all⟩
      · rintro ⟨i, hi, rfl⟩
        exact ⟨rfl, by omega⟩
  rw [hperm.length_eq, List.length_map, List.length_range]

/-! ## Claim theorems -/

/-- **C4** Pair Materializer: every emitted pair has its earlier-scene date
strictly earlier than its later-scene date (same-date degenerate entries
and the mirrored lower triangle are discarded), no unordered scene pair
appears twice within one strategy's output list, and the emitted
identifier/date lists are the per-pair images of the retained scan. -/
theorem materializer_ordered_and_unique (tbl : List Scene) (M : Mat) :
    (∀ p ∈ pairScan tbl M, (dateAt tbl p.1).toAbs < (dateAt tbl p.2).toAbs) ∧
    List.Pairwise (fun p q => ¬(q = p ∨ (q.1 = p.2 ∧ q.2 = p.1)))
      (pairScan tbl M) ∧
    materializeLists tbl M =
      ((pairScan tbl M).map (pairInput tbl),
       (pairScan tbl M).map (pairDates tbl)) := by
  refine ⟨?_, ?_, materializeLists_eq tbl M⟩
  · intro p hp
    exact ((mem_pairScan tbl M p).mp hp).2.2.2
  · have hnd : List.Pairwise (fun a b => a ≠ b) (pairScan tbl M) :=
      pairScan_nodup tbl M
    refine List.Pairwise.imp_of_mem ?_ hnd
    intro a b ha hb hne
    rintro (rfl | ⟨h1, h2⟩)
    · exact hne rfl
    · have hA := ((mem_pairScan tbl M a).mp ha).2.2.2
      have hB := ((mem_pairScan tbl M b).mp hb).2.2.2
      rw [h1, h2] at hB
      omega

/-- **C5** Mode-2 baseline filtering is a pure mask: a pair retained from a
masked strategy matrix was retained from the unmasked one (element-wise
multiplication never adds pairs), and in mode 2 the strategy key list is
unchanged — no separate "BL" entry is emitted. -/
theorem mode2_filter_subset (tbl : List Scene) (B M : Mat)
    (subs : List (String × Mat)) (p : Nat × Nat)
    (hp : p ∈ pairScan tbl (matMask M B)) :
    p ∈ pairScan tbl M ∧
    (applyBLStage 2 B subs).map Prod.fst = subs.map Prod.fst := by
  constructor
  · rw [mem_pairScan] at hp ⊢
    refine ⟨hp.1, hp.2.1, ?_, hp.2.2.2⟩
    have hmask := hp.2.2.1
    simp only [matMask, Bool.and_eq_true] at hmask
    exact hmask.1
  · rw [applyBLStage, if_neg (by norm_num), if_pos rfl]
    simp


/-- **C5 witness** -/
theorem mode2_filter_subset_witness :
    (0, 1) ∈ pairScan exTbl3 (matMask (seqMat 3) (blMat exTbl3 200 1 400)) ∧
    ((0, 1) ∈ pairScan exTbl3 (seqMat 3) ∧
      (applyBLStage 2 (blMat exTbl3 200 1 400) [("SEQ", seqMat 3)]).map
          Prod.fst =
        [("SEQ", seqMat 3)].map Prod.fst) :=
  ⟨by decide,
   mode2_filter_subset exTbl3 (blMat exTbl3 200 1 400) (seqMat 3)
     [("SEQ", seqMat 3)] (0, 1) (by decide)⟩

/-- **C6** Baseline-Constrained strategy: for every ordered index pair
(i, j) over the table (both directions included), the matrix entry is set
exactly when |Bp(i) − Bp(j)| < BP_MAX (strict), (date(j) − date(i)).days ≥
DT_MIN and (date(j) − date(i)).days ≤ DT_MAX. -/
theorem bl_entry_iff (tbl : List Scene) (BP_MAX DT_MIN DT_MAX : ℚ)
    (i j : Nat) (hi : i < tbl.length) (hj : j < tbl.length) :
    blMat tbl BP_MAX DT_MIN DT_MAX i j = true ↔
      (|bpAt tbl i - bpAt tbl j| < BP_MAX ∧
        DT_MIN ≤ ((daysBetween (dateAt tbl i) (dateAt tbl j) : Int) : ℚ) ∧
        ((daysBetween (dateAt tbl i) (dateAt tbl j) : Int) : ℚ) ≤ DT_MAX) := by
  rw [blMat, buildMat_spec]
  simp [blCond, hi, hj, and_assoc]

/-- **C6 witness** -/
theorem bl_entry_iff_witness :
    (0 : Nat) < exTbl3.length ∧ (1 : Nat) < exTbl3.length ∧
    (blMat exTbl3 200 1 400 0 1 = true ↔
      (|bpAt exTbl3 0 - bpAt exTbl3 1| < 200 ∧
        (1 : ℚ) ≤ ((daysBetween (dateAt exTbl3 0) (dateAt exTbl3 1) : Int) : ℚ) ∧
        ((daysBetween (dateAt exTbl3 0) (dateAt exTbl3 1) : Int) : ℚ) ≤ 400)) :=
  ⟨by decide, by decide,
   bl_entry_iff exTbl3 200 1 400 0 1 (by decide) (by decide)⟩

/-- **C10** Output-list alignment: per strategy the identifier and date
lists are equal-length position-aligned images of one retained-pair scan,
and the master lists are the key-ordered concatenations of the
per-strategy lists, hence also equal-length and position-aligned. -/
theorem output_lists_aligned (tbl : List Scene) (M : Mat)
    (subs : List (String × Mat)) :
    (materializeLists tbl M).1 = (pairScan tbl M).map (pairInput tbl) ∧
    (materializeLists tbl M).2 = (pairScan tbl M).map (pairDates tbl) ∧
    (materializeLists tbl M).1.length = (materializeLists tbl M).2.length ∧
    (subsetLists tbl subs).1 =
      subs.map (fun p => (p.1, (pairScan tbl p.2).map (pairInput tbl))) ∧
    (subsetLists tbl subs).2 =
      subs.map (fun p => (p.1, (pairScan tbl p.2).map (pairDates tbl))) ∧
    intfInputs tbl subs = (masterPairs tbl subs).map (pairInput tbl) ∧
    intfDates tbl subs = (masterPairs tbl subs).map (pairDates tbl) ∧
    (intfInputs tbl subs).length = (intfDates tbl subs).length := by
  have h1 := materializeLists_eq tbl M
  have h2 := subsetLists_eq tbl subs
  refine ⟨?_, ?_, ?_, ?_, ?_, intfInputs_eq tbl subs, intfDates_eq tbl subs, ?_⟩
  · rw [h1]
  · rw [h1]
  · rw [h1]; simp
  · rw [h2]
  · rw [h2]
  · rw [intfInputs_eq, intfDates_eq]; simp

/-- **C7 counterexample**: the claim quantifies over every table, but with
two scenes sharing one acquisition date (rows are ordered by `sar_time`,
not by date) the active Sequential strategy materializes 0 pairs, not
N - 1 = 1. -/
theorem seq_claim_counterexample :
    exTblSame2.length = 2 ∧ pyBool (some 1) = true ∧
    (pairScan exTblSame2 (seqMat exTblSame2.length)).length ≠ 2 - 1 := by
  decide

/-- **C7 (amended)** Sequential strategy: the matrix entry (i, j) is set
exactly when |i - j| = 1, and — provided the table's dates strictly
increase with the row index — materialization yields exactly the N - 1
unordered pairs (i, i+1), i in 0..N-2. -/
theorem seq_strategy_spec (tbl : List Scene) (hN : 2 ≤ tbl.length)
    (hmono : ∀ a b, a < b → b < tbl.length →
      (dateAt tbl a).toAbs < (dateAt tbl b).toAbs) :
    (∀ i j, seqMat tbl.length i j = true ↔
        i < tbl.length ∧ j < tbl.length ∧ ((j : Int) - (i : Int)).natAbs = 1) ∧
    (∀ p, p ∈ pairScan tbl (seqMat tbl.length) ↔
        p.2 = p.1 + 1 ∧ p.2 < tbl.length) ∧
    (pairScan tbl (seqMat tbl.length)).length = tbl.length - 1 := by
  have hM : ∀ i j, seqMat tbl.length i j = true ↔
      i < tbl.length ∧ j < tbl.length ∧ ((j : Int) - (i : Int)).natAbs = 1 := by
    intro i j
    rw [seqMat, buildMat_spec]
    simp [seqCond]
  exact ⟨hM, pairScan_band_perm tbl 1 (by omega) hmono _ hM,
    pairScan_band_length tbl 1 (by omega) hmono _ hM⟩

/-- **C7 witness** -/
theorem seq_strategy_spec_witness :
    2 ≤ exTbl3.length ∧
    ((∀ i j, seqMat exTbl3.length i j = true ↔
        i < exTbl3.length ∧ j < exTbl3.length ∧
          ((j : Int) - (i : Int)).natAbs = 1) ∧
     (∀ p, p ∈ pairScan exTbl3 (seqMat exTbl3.length) ↔
        p.2 = p.1 + 1 ∧ p.2 < exTbl3.length) ∧
     (pairScan exTbl3 (seqMat exTbl3.length)).length = exTbl3.length - 1) :=
  ⟨by decide,
   seq_strategy_spec exTbl3 (by decide)
     (by
       intro a b hab hb
       have hb3 : b < 3 := hb
       interval_cases b <;> interval_cases a <;> decide)⟩

/-- **C8 counterexample**: with three scenes sharing one acquisition date,
the active Skip strategy materializes 0 pairs, not N - 2 = 1. -/
theorem skip_claim_counterexample :
    exTblSame3.length = 3 ∧
    pyGtZero (some 1) = Except.ok true ∧
    (pairScan exTblSame3 (skipMat exTblSame3.length)).length ≠ 3 - 2 :=
  ⟨rfl, rfl, by decide⟩

/-- **C8 (amended)** Skip strategy: for every positive SKIP value the
strategy is active and its matrix entry (i, j) is set exactly when
|i - j| = 2 — a fixed order-2 skip, not parametrized by the SKIP value —
and, provided the table's dates strictly increase with the row index,
materialization yields exactly the N - 2 unordered pairs (i, i+2). -/
theorem skip_strategy_spec (tbl : List Scene) (skip : ℚ) (hskip : 0 < skip)
    (hN : 3 ≤ tbl.length)
    (hmono : ∀ a b, a < b → b < tbl.length →
      (dateAt tbl a).toAbs < (dateAt tbl b).toAbs) :
    pyGtZero (some skip) = Except.ok true ∧
    (∀ i j, skipMat tbl.length i j = true ↔
        i < tbl.length ∧ j < tbl.length ∧ ((j : Int) - (i : Int)).natAbs = 2) ∧
    (∀ p, p ∈ pairScan tbl (skipMat tbl.length) ↔
        p.2 = p.1 + 2 ∧ p.2 < tbl.length) ∧
    (pairScan tbl (skipMat tbl.length)).length = tbl.length - 2 := by
  have hM : ∀ i j, skipMat tbl.length i j = true ↔
      i < tbl.length ∧ j < tbl.length ∧ ((j : Int) - (i : Int)).natAbs = 2 := by
    intro i j
    rw [skipMat, buildMat_spec]
    simp [skipCond]
  refine ⟨?_, hM, pairScan_band_perm tbl 2 (by omega) hmono _ hM,
    pairScan_band_length tbl 2 (by omega) hmono _ hM⟩
  simp [pyGtZero, hskip]

/-- **C8 witness** -/
theorem skip_strategy_spec_witness :
    (0 : ℚ) < 1 ∧ 3 ≤ exTbl3.length ∧
    (pyGtZero (some 1) = Except.ok true ∧
     (∀ i j, skipMat exTbl3.length i j = true ↔
        i < exTbl3.length ∧ j < exTbl3.length ∧
          ((j : Int) - (i : Int)).natAbs = 2) ∧
     (∀ p, p ∈ pairScan exTbl3 (skipMat exTbl3.length) ↔
        p.2 = p.1 + 2 ∧ p.2 < exTbl3.length) ∧
     (pairScan exTbl3 (skipMat exTbl3.length)).length = exTbl3.length - 2) :=
  ⟨by decide, by decide,
   skip_strategy_spec exTbl3 1 (by decide) (by decide)
     (by
       intro a b hab hb
       have hb3 : b < 3 := hb
       interval_cases b <;> interval_cases a <;> decide)⟩

/-- **C9** Reference-scene fallback heuristic: whenever the requested
`DATE_MASTER` is not a float (in particular a date, a string, or absent),
a table with at least one scene always yields a supermaster: the scene
whose baseline deviates least from the stack-mean baseline, ties broken by
the first occurrence in index order. -/
theorem fallback_selector_spec (tbl : List Scene) (dm : Option PrmVal)
    (hN : 0 < tbl.length) (hdm : ∀ q, dm ≠ some (PrmVal.num q)) :
    ∃ k, fallbackIndex tbl = some k ∧
      selectSupermaster tbl dm = Except.ok (sceneAt tbl k) ∧
      k < tbl.length ∧
      (∀ m < tbl.length, bpDev tbl k ≤ bpDev tbl m) ∧
      (∀ m < k, bpDev tbl k < bpDev tbl m) := by
  have hic : indexContains tbl.length dm = false := by
    cases dm with
    | none => rfl
    | some v =>
      cases v with
      | date d => rfl
      | num q => exact absurd rfl (hdm q)
      | str s => rfl
  obtain ⟨r, hr, hrN, hmin, hfirst⟩ :=
    argminFirst_range_spec (bpDev tbl) tbl.length hN
  refine ⟨r, hr, ?_, hrN, hmin, hfirst⟩
  unfold selectSupermaster
  rw [if_pos hic, show fallbackIndex tbl = some r from hr]

/-- **C9 witness** -/
theorem fallback_selector_spec_witness :
    0 < exTbl3.length ∧
    (∃ k, fallbackIndex exTbl3 = some k ∧
      selectSupermaster exTbl3 none = Except.ok (sceneAt exTbl3 k) ∧
      k < exTbl3.length ∧
      (∀ m < exTbl3.length, bpDev exTbl3 k ≤ bpDev exTbl3 m) ∧
      (∀ m < k, bpDev exTbl3 k < bpDev exTbl3 m)) :=
  ⟨by decide,
   fallback_selector_spec exTbl3 none (by decide)
     (fun q h => Option.noConfusion h)⟩

/-- **C1** Reference-scene selector with a matching `DATE_MASTER`: the
code's branch test `DATE_MASTER not in baseline_table['date']` is a pandas
index-membership test, so a datetime-valued `DATE_MASTER` never hits the
`==`-match branch.  Concretely, scene 0 of `exTbl3` carries the requested
date, yet the selector takes the baseline-mean fallback and returns
scene 2. -/
theorem date_master_match_ignored :
    dateAt exTbl3 0 = ⟨2020, 5⟩ ∧
    indexContains exTbl3.length (some (PrmVal.date ⟨2020, 5⟩)) = false ∧
    selectSupermaster exTbl3 (some (PrmVal.date ⟨2020, 5⟩)) =
      Except.ok (sceneAt exTbl3 2) ∧
    sceneAt exTbl3 2 ≠ sceneAt exTbl3 0 ∧
    (∃ out, selectPairs exTbl3 exCfgWithDM = Except.ok out ∧
      out.supermaster = sceneAt exTbl3 2) := by
  refine ⟨rfl, rfl, rfl, by decide, ⟨_, rfl, rfl⟩⟩

/-- **C2** Missing `SKIP` key: the default-instatement loop only rebinds
its loop variable, so a missing `SKIP` stays `None` and `if SKIP > 0`
raises `TypeError` — `select_pairs` fails instead of proceeding with the
documented falsy default. -/
theorem missing_skip_key_raises (tbl : List Scene) (cfg : Config)
    (hN : 0 < tbl.length)
    (hdm : indexContains tbl.length cfg.DATE_MASTER = false)
    (hskip : cfg.SKIP = none) :
    selectPairs tbl cfg =
      Except.error
        "TypeError: '>' not supported between instances of 'NoneType' and 'int'" := by
  obtain ⟨r, hr, _, _, _⟩ := argminFirst_range_spec (bpDev tbl) tbl.length hN
  have hsel : selectSupermaster tbl cfg.DATE_MASTER = Except.ok (sceneAt tbl r) := by
    unfold selectSupermaster
    rw [if_pos hdm, show fallbackIndex tbl = some r from hr]
  unfold selectPairs
  dsimp only
  simp only [instateDefaults]
  rw [hsel, hskip]
  rfl

/-- **C2 witness** -/
theorem missing_skip_key_raises_witness :
    0 < exTbl3.length ∧
    indexContains exTbl3.length exCfgNoSkip.DATE_MASTER = false ∧
    exCfgNoSkip.SKIP = none ∧
    selectPairs exTbl3 exCfgNoSkip =
      Except.error
        "TypeError: '>' not supported between instances of 'NoneType' and 'int'" :=
  ⟨by decide, rfl, rfl,
   missing_skip_key_raises exTbl3 exCfgNoSkip (by decide) rfl rfl⟩

/-- **C3** Long-strategy termination: from any loop state the
window-search completes within `longFuel` steps — no table or window
bounds cause an infinite loop — and the two termination guards act as
specified: once the advancing year exceeds the last scene's year the
window is forced to the table's last scene and the chain is marked
complete; reaching the last scene's year while the reference scene's
Julian day is at most `LONG_END` also marks the chain complete. -/
theorem long_strategy_terminates (tbl : List Scene) (LS LE : ℚ) (s : LState)
    (hN : 0 < tbl.length) :
    (longRun tbl LS LE (longFuel tbl s) s).isSome = true ∧
    (lastYear tbl < s.year + 1 →
      longStep tbl LS LE s =
        { i := tbl.length - 1, year := s.year + 1, complete := true,
          edges := s.edges ++ [(s.i, tbl.length - 1)] }) ∧
    (s.year + 1 = lastYear tbl →
      (((dateAt tbl s.i).doy : Int) : ℚ) ≤ LE →
      (longStep tbl LS LE s).complete = true ∧
      dateAt tbl (longStep tbl LS LE s).i = lastDate tbl) := by
  refine ⟨longRun_isSome tbl LS LE _ s le_rfl,
    fun h => longStep_guard2 tbl LS LE s h, ?_⟩
  intro h1 h2
  have hg1 : (decide (s.year + 1 = lastYear tbl) &&
      decide ((((dateAt tbl s.i).doy : Int) : ℚ) ≤ LE)) = true := by
    rw [decide_eq_true h1, decide_eq_true h2]
    rfl
  have hg2 : decide (lastYear tbl < s.year + 1) = false := by
    rw [decide_eq_false_iff_not]
    omega
  have hmem : tbl.length - 1 ∈
      (List.range tbl.length).filter
        (fun k => decide (dateAt tbl k = lastDate tbl)) :=
    List.mem_filter.mpr
      ⟨List.mem_range.mpr (by omega), by simp [lastDate]⟩
  have hne : ((List.range tbl.length).filter
      (fun k => decide (dateAt tbl k = lastDate tbl))).isEmpty = false := by
    rcases hfe : (List.range tbl.length).filter
        (fun k => decide (dateAt tbl k = lastDate tbl)) with _ | ⟨a, l⟩
    · rw [hfe] at hmem
      cases hmem
    · rfl
  unfold longStep
  dsimp only
  rw [hg1, hg2]
  simp only [if_pos, if_neg, Bool.false_eq_true, if_false, if_true]
  rw [if_neg (by rw [hne]; exact Bool.false_ne_true)]
  refine ⟨rfl, ?_⟩
  obtain ⟨r, hrEq, hrMem⟩ :=
    argminFirst_some_mem (fun k => |bpAt tbl s.i - bpAt tbl k|) _
      (List.ne_nil_of_mem hmem)
  rw [hrEq, Option.getD_some]
  exact of_decide_eq_true (List.mem_filter.mp hrMem).2

/-- **C3 witness** -/
theorem long_strategy_terminates_witness :
    0 < exTbl3.length ∧
    ((longRun exTbl3 150 270 (longFuel exTbl3 ⟨0, 2021, false, []⟩)
        ⟨0, 2021, false, []⟩).isSome = true ∧
     (lastYear exTbl3 < (2021 : Int) + 1 →
       longStep exTbl3 150 270 ⟨0, 2021, false, []⟩ =
         { i := exTbl3.length - 1, year := 2021 + 1, complete := true,
           edges := [] ++ [(0, exTbl3.length - 1)] }) ∧
     ((2021 : Int) + 1 = lastYear exTbl3 →
       (((dateAt exTbl3 0).doy : Int) : ℚ) ≤ 270 →
       (longStep exTbl3 150 270 ⟨0, 2021, false, []⟩).complete = true ∧
       dateAt exTbl3 (longStep exTbl3 150 270 ⟨0, 2021, false, []⟩).i =
         lastDate exTbl3)) :=
  ⟨by decide, long_strategy_terminates exTbl3 150 270 ⟨0, 2021, false, []⟩ (by decide)⟩

end GetBaseline
